import Mathlib

/-!
Shallow embedding of the credential/connectivity broker:
`src/services/cloudflare_solver.py` (CloudflareState, solve_cloudflare_challenge,
is_cloudflare_challenge) and `src/services/proxy_manager.py` (ProxyManager).

External effects are made explicit: the wall clock is a `Nat` parameter, the
solving service is a function from attempt number to the observed attempt
outcome, the proxy list file is a `FileRead` value, and the persisted proxy
configuration is threaded as data.  Python `Optional[str]` truthiness
(`None` and `""` are both falsy) is modelled by `optStrTruthy`.
-/

namespace Sora

/-- Python truthiness of an `Optional[str]` value: `None` and `""` are falsy. -/
def optStrTruthy : Option String → Bool
  | none => false
  | some s => !s.isEmpty

/-- State held by `CloudflareState.__init__`: cookies dict, optional
user-agent, optional last-updated timestamp.  Cookies are a key-value list
(dict contents); only emptiness and content matter to the embedded code. -/
structure CloudflareState where
  cookies : List (String × String)
  user_agent : Option String
  last_updated : Option Nat
  deriving Repr, DecidableEq

/-- The state built by `CloudflareState.__init__`. -/
def initialCloudflareState : CloudflareState := ⟨[], none, none⟩

/-- The mutating operations of `CloudflareState`: `update(cookies, user_agent)`
(with the current time) and `clear()`. -/
inductive CfOp where
  | update (cookies : List (String × String)) (ua : Option String) (now : Nat)
  | clear
  deriving Repr, DecidableEq

/-- `CloudflareState.update` overwrites all three fields (a copy of the given
cookies, the given user-agent, the current time); `CloudflareState.clear`
resets all three.  Neither reads the previous state. -/
def CloudflareState.applyOp : CloudflareState → CfOp → CloudflareState
  | _, .update cookies ua now => ⟨cookies, ua, some now⟩
  | _, .clear => ⟨[], none, none⟩

/-- `CloudflareState.is_valid`: `bool(self._cookies) and self._user_agent is not None`. -/
def CloudflareState.is_valid (s : CloudflareState) : Bool :=
  !s.cookies.isEmpty && s.user_agent.isSome

/-- `CloudflareState.get_headers_update`: `{"User-Agent": ua}` when the stored
user-agent is truthy, else the empty dict. -/
def CloudflareState.get_headers_update (s : CloudflareState) : List (String × String) :=
  match s.user_agent with
  | some ua => if !ua.isEmpty then [("User-Agent", ua)] else []
  | none => []

/-- Replay a sequence of mutating operations from the initial (empty) state. -/
def runCfOps (ops : List CfOp) : CloudflareState :=
  ops.foldl CloudflareState.applyOp initialCloudflareState

/-- Decision following the spec's words: the most recent mutating call is an
`update` whose cookies mapping is non-empty and whose user-agent is present
(non-`None`), and no `clear` occurred after it; false for the empty history. -/
def lastMutationValid (ops : List CfOp) : Bool :=
  match ops.getLast? with
  | some (.update c ua _) => !c.isEmpty && ua.isSome
  | some .clear => false
  | none => false

theorem runCfOps_append_single (l : List CfOp) (op : CfOp) :
    runCfOps (l ++ [op]) = (runCfOps l).applyOp op := by
  simp [runCfOps]

theorem lastMutationValid_append_single (l : List CfOp) (op : CfOp) :
    lastMutationValid (l ++ [op]) =
      (match op with
       | .update c ua _ => !c.isEmpty && ua.isSome
       | .clear => false) := by
  simp only [lastMutationValid, List.getLast?_concat]
  cases op <;> rfl

/-- **C1.** For every sequence of `CloudflareState` mutating operations from the
initial empty state, `is_valid` is true iff the most recent mutating call was an
`update` with non-empty cookies and a present (non-`None`) user-agent and no
`clear` occurred after it; in the initial state and after any `clear`,
`is_valid` is false. -/
theorem credential_is_valid_iff_last_update (ops : List CfOp) :
    (runCfOps ops).is_valid = lastMutationValid ops := by
  induction ops using List.reverseRecOn with
  | nil => rfl
  | append_singleton l op _ih =>
    rw [runCfOps_append_single, lastMutationValid_append_single]
    cases op with
    | update c ua now => simp [CloudflareState.applyOp, CloudflareState.is_valid]
    | clear => simp [CloudflareState.applyOp, CloudflareState.is_valid]

/-- **C10.** `get_headers_update` returns exactly `{"User-Agent": ua}` whenever
a user-agent is present in the store (per the code's truthiness check: set and
non-empty), returns the empty mapping when no user-agent is present, and never
contains any key other than `"User-Agent"`. -/
theorem headers_update_characterisation (s : CloudflareState) :
    (∀ ua, s.user_agent = some ua → ¬ua.isEmpty → s.get_headers_update = [("User-Agent", ua)]) ∧
    (optStrTruthy s.user_agent = false → s.get_headers_update = []) ∧
    (∀ k v, (k, v) ∈ s.get_headers_update → k = "User-Agent" ∧ s.user_agent = some v) := by
  refine ⟨?_, ?_, ?_⟩
  · intro ua hua hne
    simp [CloudflareState.get_headers_update, hua, hne]
  · intro h
    cases hua : s.user_agent with
    | none => simp [CloudflareState.get_headers_update, hua]
    | some ua =>
      rw [hua] at h
      simp only [optStrTruthy, Bool.not_eq_true'] at h
      simp [CloudflareState.get_headers_update, hua, h]
  · intro k v hmem
    cases hua : s.user_agent with
    | none => simp [CloudflareState.get_headers_update, hua] at hmem
    | some ua =>
      rw [CloudflareState.get_headers_update, hua] at hmem
      by_cases hne : ua.isEmpty
      · simp [hne] at hmem
      · simp [hne] at hmem
        exact ⟨hmem.1, by rw [hmem.2]⟩

/-- Witness for C10 at a concrete store state. -/
theorem headers_update_characterisation_witness :
    (CloudflareState.get_headers_update ⟨[("cf_clearance", "tok")], some "UA-1", some 5⟩) =
      [("User-Agent", "UA-1")] := by
  exact (headers_update_characterisation ⟨[("cf_clearance", "tok")], some "UA-1", some 5⟩).1
    "UA-1" rfl (by decide)

/-! ## `solve_cloudflare_challenge` -/

/-- The JSON envelope returned by the solving service on an HTTP 200:
`{success, cookies?, user_agent?}` (absent keys are `none`; `data.get("cookies", {})`
supplies the empty default at the use site). -/
structure SolverEnvelope where
  success : Bool
  cookies : Option (List (String × String))
  user_agent : Option String
  deriving Repr, DecidableEq

/-- What one attempt of the solver loop observes from the outside world:
either an exception (timeout, connection error, malformed body — the
`except` path) or an HTTP response with a status code and parsed body. -/
inductive AttemptResult where
  | fault
  | response (status : Nat) (body : SolverEnvelope)
  deriving Repr, DecidableEq

/-- The dict `{"cookies": ..., "user_agent": ...}` returned on success. -/
structure SolvePayload where
  cookies : List (String × String)
  user_agent : Option String
  deriving Repr, DecidableEq

/-- Everything observable about one call of `solve_cloudflare_challenge`:
its return value, the global `CloudflareState` afterwards, the list of
`asyncio.sleep` durations performed (in order), and how many HTTP attempts
were issued. -/
structure SolveOutcome where
  result : Option SolvePayload
  finalState : CloudflareState
  waits : List Nat
  attemptsMade : Nat
  deriving Repr, DecidableEq

/-- `wait_time = attempt * 2` — the backoff is a pure function of the attempt number. -/
def backoff (attempt : Nat) : Nat := attempt * 2

/-- The body of one loop iteration: `none` means a soft failure (exception,
non-200 status, or `success` falsy); `some (payload, newState)` means the
attempt returns.  On `success` the payload is taken raw from the envelope
(cookies defaulting to `{}`), and the global state is updated only when
`cookies and user_agent` is truthy. -/
def attemptStep (r : AttemptResult) (st : CloudflareState) (now : Nat) :
    Option (SolvePayload × CloudflareState) :=
  match r with
  | .fault => none
  | .response status body =>
    if status = 200 then
      if body.success then
        let cookies := body.cookies.getD []
        let st1 := if !cookies.isEmpty && optStrTruthy body.user_agent
          then st.applyOp (.update cookies body.user_agent now)
          else st
        some (⟨cookies, body.user_agent⟩, st1)
      else none
    else none

/-- Whether an attempt outcome is absorbed as a soft failure: any exception,
any non-200 status, or a 200 whose envelope has `success` falsy. -/
def isSoftFailure : AttemptResult → Bool
  | .fault => true
  | .response status body => if status = 200 then !body.success else true

/-- `for attempt in range(1, max_retries + 1)` with `fuel` iterations left:
try the attempt; on success return; on soft failure sleep `attempt * 2`
only when `attempt < max_retries`, then continue. -/
def solveLoop (env : Nat → AttemptResult) (now max_retries : Nat) :
    Nat → Nat → CloudflareState → List Nat → Nat → SolveOutcome
  | _, 0, st, waits, made => ⟨none, st, waits.reverse, made⟩
  | attempt, fuel + 1, st, waits, made =>
    match attemptStep (env attempt) st now with
    | some (p, st1) => ⟨some p, st1, waits.reverse, made + 1⟩
    | none =>
      if attempt < max_retries then
        solveLoop env now max_retries (attempt + 1) fuel st (backoff attempt :: waits) (made + 1)
      else
        solveLoop env now max_retries (attempt + 1) fuel st waits (made + 1)

/-- The settings consulted by the configuration gate. -/
structure SolverConfig where
  cloudflare_solver_enabled : Bool
  cloudflare_solver_api_url : Option String
  deriving Repr, DecidableEq

/-- `solve_cloudflare_challenge(max_retries)`: if the solver is disabled or the
API URL is falsy, return `None` at once (no attempt, no wait); otherwise run
the bounded retry loop starting at attempt 1. -/
def solve_cloudflare_challenge (cfg : SolverConfig) (env : Nat → AttemptResult)
    (now : Nat) (st : CloudflareState) (max_retries : Nat) : SolveOutcome :=
  if !cfg.cloudflare_solver_enabled || !optStrTruthy cfg.cloudflare_solver_api_url then
    ⟨none, st, [], 0⟩
  else
    solveLoop env now max_retries 1 max_retries st [] 0

theorem attemptStep_eq_none_iff (r : AttemptResult) (st : CloudflareState) (now : Nat) :
    attemptStep r st now = none ↔ isSoftFailure r = true := by
  cases r with
  | fault => simp [attemptStep, isSoftFailure]
  | response status body =>
    by_cases hs : status = 200
    · by_cases hb : body.success <;>
        simp [attemptStep, isSoftFailure, hs, hb]
    · simp [attemptStep, isSoftFailure, hs]

theorem attemptStep_of_not_soft (r : AttemptResult) (st : CloudflareState) (now : Nat)
    (h : isSoftFailure r = false) :
    ∃ body, r = .response 200 body ∧ body.success = true ∧
      attemptStep r st now =
        some (⟨body.cookies.getD [], body.user_agent⟩,
          if !(body.cookies.getD []).isEmpty && optStrTruthy body.user_agent
          then st.applyOp (.update (body.cookies.getD []) body.user_agent now)
          else st) := by
  cases r with
  | fault => simp [isSoftFailure] at h
  | response status body =>
    by_cases hs : status = 200
    · subst hs
      have h2 : body.success = true := by
        simp [isSoftFailure] at h
        exact h
      refine ⟨body, rfl, h2, ?_⟩
      simp [attemptStep, h2]
    · simp [isSoftFailure, hs] at h

theorem backoff_range_cons (a g : Nat) :
    (List.range (g + 1)).map (fun i => backoff (a + i)) =
      backoff a :: (List.range g).map (fun i => backoff (a + 1 + i)) := by
  rw [List.range_succ_eq_map]
  simp only [List.map_cons, List.map_map, Nat.add_zero]
  congr 1
  apply List.map_congr_left
  intro i _
  simp only [Function.comp_apply, backoff]
  omega

/-- If every attempt in the remaining window soft-fails, the loop exhausts its
fuel, leaves the state untouched, returns `None`, and sleeps `backoff k` after
exactly those attempts `k` that are below `max_retries`. -/
theorem solveLoop_all_soft (env : Nat → AttemptResult) (now mr : Nat) :
    ∀ fuel attempt st waits made, attempt + fuel = mr + 1 →
    (∀ k, attempt ≤ k → k ≤ mr → isSoftFailure (env k) = true) →
    solveLoop env now mr attempt fuel st waits made =
      ⟨none, st, waits.reverse ++ (List.range (fuel - 1)).map (fun i => backoff (attempt + i)),
        made + fuel⟩ := by
  intro fuel
  induction fuel with
  | zero =>
    intro attempt st waits made _hle _hall
    simp [solveLoop]
  | succ f ih =>
    intro attempt st waits made hle hall
    have hatt : attempt ≤ mr := by omega
    have hsoft : isSoftFailure (env attempt) = true := hall attempt le_rfl hatt
    have hnone : attemptStep (env attempt) st now = none :=
      (attemptStep_eq_none_iff _ _ _).mpr hsoft
    rw [solveLoop, hnone]
    by_cases hlt : attempt < mr
    · rw [if_pos hlt]
      rw [ih (attempt + 1) st (backoff attempt :: waits) (made + 1) (by omega)
        (fun k hk1 hk2 => hall k (by omega) hk2)]
      have hf : 1 ≤ f := by omega
      have : (List.range (f + 1 - 1)).map (fun i => backoff (attempt + i)) =
          backoff attempt :: (List.range (f - 1)).map (fun i => backoff (attempt + 1 + i)) := by
        have hf1 : f + 1 - 1 = (f - 1) + 1 := by omega
        rw [hf1, backoff_range_cons]
      simp only [this, List.reverse_cons, List.append_assoc, List.singleton_append]
      congr 1
      omega
    · rw [if_neg hlt]
      have hf0 : f = 0 := by omega
      subst hf0
      simp [solveLoop]

/-- If attempts `attempt, …, j-1` soft-fail and attempt `j` does not, the loop
returns attempt `j`'s payload, updates the state per attempt `j`, and has
slept `backoff k` for exactly `k = attempt, …, j-1`. -/
theorem solveLoop_success (env : Nat → AttemptResult) (now mr j : Nat) :
    ∀ fuel attempt st waits made, attempt + fuel = mr + 1 →
    attempt ≤ j → j ≤ mr →
    (∀ k, attempt ≤ k → k < j → isSoftFailure (env k) = true) →
    isSoftFailure (env j) = false →
    ∀ p st1, attemptStep (env j) st now = some (p, st1) →
    solveLoop env now mr attempt fuel st waits made =
      ⟨some p, st1, waits.reverse ++ (List.range (j - attempt)).map (fun i => backoff (attempt + i)),
        made + (j - attempt) + 1⟩ := by
  intro fuel
  induction fuel with
  | zero =>
    intro attempt st waits made hle haj hjm _hall _hns p st1 _hstep
    omega
  | succ f ih =>
    intro attempt st waits made hle haj hjm hall hns p st1 hstep
    rcases Nat.eq_or_lt_of_le haj with heq | hlt
    · subst heq
      rw [solveLoop, hstep]
      simp
    · have hsoft : isSoftFailure (env attempt) = true := hall attempt le_rfl hlt
      have hnone : attemptStep (env attempt) st now = none :=
        (attemptStep_eq_none_iff _ _ _).mpr hsoft
      rw [solveLoop, hnone]
      have hltmr : attempt < mr := by omega
      rw [if_pos hltmr]
      rw [ih (attempt + 1) st (backoff attempt :: waits) (made + 1) (by omega) (by omega) hjm
        (fun k hk1 hk2 => hall k (by omega) hk2) hns p st1 hstep]
      have hj1 : j - attempt = (j - (attempt + 1)) + 1 := by omega
      have : (List.range (j - attempt)).map (fun i => backoff (attempt + i)) =
          backoff attempt :: (List.range (j - (attempt + 1))).map (fun i => backoff (attempt + 1 + i)) := by
        rw [hj1, backoff_range_cons]
      simp only [this, List.reverse_cons, List.append_assoc, List.singleton_append]
      congr 1
      omega

/-- If the loop returns a payload, some attempt in its window was not a soft failure. -/
theorem solveLoop_result_some (env : Nat → AttemptResult) (now mr : Nat) :
    ∀ fuel attempt st waits made p,
    (solveLoop env now mr attempt fuel st waits made).result = some p →
    ∃ k, attempt ≤ k ∧ k < attempt + fuel ∧ isSoftFailure (env k) = false := by
  intro fuel
  induction fuel with
  | zero =>
    intro attempt st waits made p h
    simp [solveLoop] at h
  | succ f ih =>
    intro attempt st waits made p h
    rw [solveLoop] at h
    cases hstep : attemptStep (env attempt) st now with
    | some pr =>
      refine ⟨attempt, le_rfl, by omega, ?_⟩
      by_contra hsoft
      rw [Bool.not_eq_false] at hsoft
      rw [(attemptStep_eq_none_iff _ _ _).mpr hsoft] at hstep
      exact Option.noConfusion hstep
    | none =>
      rw [hstep] at h
      by_cases hlt : attempt < mr
      · rw [if_pos hlt] at h
        obtain ⟨k, hk1, hk2, hk3⟩ := ih (attempt + 1) st (backoff attempt :: waits) (made + 1) p h
        exact ⟨k, by omega, by omega, hk3⟩
      · rw [if_neg hlt] at h
        obtain ⟨k, hk1, hk2, hk3⟩ := ih (attempt + 1) st waits (made + 1) p h
        exact ⟨k, by omega, by omega, hk3⟩

/-- **C2.** `solve_cloudflare_challenge` never raises (it is a total function
into `SolveOutcome`): with the solver flag off or a falsy API URL it returns
`None` immediately with no attempt and no wait; when every one of the
`max_retries` attempts ends in a soft failure it returns `None`; and it
returns a payload only when some attempt within the retry window yielded
HTTP 200 with `success = true`. -/
theorem solve_gate_exhaustion_success (cfg : SolverConfig) (env : Nat → AttemptResult)
    (now : Nat) (st : CloudflareState) (mr : Nat) :
    ((cfg.cloudflare_solver_enabled = false ∨ optStrTruthy cfg.cloudflare_solver_api_url = false) →
      solve_cloudflare_challenge cfg env now st mr = ⟨none, st, [], 0⟩) ∧
    ((∀ k, 1 ≤ k → k ≤ mr → isSoftFailure (env k) = true) →
      (solve_cloudflare_challenge cfg env now st mr).result = none) ∧
    (∀ p, (solve_cloudflare_challenge cfg env now st mr).result = some p →
      ∃ k body, 1 ≤ k ∧ k ≤ mr ∧ env k = .response 200 body ∧ body.success = true) := by
  refine ⟨?_, ?_, ?_⟩
  · intro h
    rcases h with h | h <;> simp [solve_cloudflare_challenge, h]
  · intro hall
    by_cases hg : (!cfg.cloudflare_solver_enabled || !optStrTruthy cfg.cloudflare_solver_api_url) = true
    · simp [solve_cloudflare_challenge, hg]
    · rw [solve_cloudflare_challenge, if_neg hg,
        solveLoop_all_soft env now mr mr 1 st [] 0 (by omega) (fun k hk1 hk2 => hall k hk1 hk2)]
  · intro p hp
    rw [solve_cloudflare_challenge] at hp
    by_cases hg : (!cfg.cloudflare_solver_enabled || !optStrTruthy cfg.cloudflare_solver_api_url) = true
    · rw [if_pos hg] at hp
      exact absurd hp (by simp)
    · rw [if_neg hg] at hp
      obtain ⟨k, hk1, hk2, hk3⟩ := solveLoop_result_some env now mr mr 1 st [] 0 p hp
      obtain ⟨body, hbody, hsucc, _⟩ := attemptStep_of_not_soft (env k) st now hk3
      exact ⟨k, body, hk1, by omega, hbody, hsucc⟩

/-- Witness for C2: with the gate open and every attempt a transport fault,
three retries end in `None`. -/
theorem solve_gate_exhaustion_success_witness :
    (solve_cloudflare_challenge ⟨true, some "http://solver"⟩ (fun _ => .fault) 0
      initialCloudflareState 3).result = none := by
  exact (solve_gate_exhaustion_success ⟨true, some "http://solver"⟩ (fun _ => .fault) 0
    initialCloudflareState 3).2.1 (fun _ _ _ => rfl)

/-- **C3.** When attempt `j` receives HTTP 200 with `success = true` (after
only soft failures), `solve_cloudflare_challenge` returns the raw payload
`{cookies, user_agent}` from the envelope (cookies defaulting to empty when
missing), and the global state is updated with that pair iff the cookies are
non-empty and the user-agent is present (truthy); otherwise the store is left
unchanged while the caller still receives the raw payload. -/
theorem solve_success_payload_and_update (cfg : SolverConfig) (env : Nat → AttemptResult)
    (now : Nat) (st : CloudflareState) (mr j : Nat) (body : SolverEnvelope)
    (hen : cfg.cloudflare_solver_enabled = true)
    (hurl : optStrTruthy cfg.cloudflare_solver_api_url = true)
    (hj1 : 1 ≤ j) (hjm : j ≤ mr)
    (hall : ∀ k, 1 ≤ k → k < j → isSoftFailure (env k) = true)
    (henv : env j = .response 200 body) (hsucc : body.success = true) :
    (solve_cloudflare_challenge cfg env now st mr).result =
      some ⟨body.cookies.getD [], body.user_agent⟩ ∧
    (solve_cloudflare_challenge cfg env now st mr).finalState =
      (if !(body.cookies.getD []).isEmpty && optStrTruthy body.user_agent
       then st.applyOp (.update (body.cookies.getD []) body.user_agent now)
       else st) := by
  have hg : ¬((!cfg.cloudflare_solver_enabled || !optStrTruthy cfg.cloudflare_solver_api_url) = true) := by
    simp [hen, hurl]
  have hsoft : isSoftFailure (env j) = false := by
    rw [henv]
    simp [isSoftFailure, hsucc]
  obtain ⟨body2, hbody2, _, hstep⟩ := attemptStep_of_not_soft (env j) st now hsoft
  have hbeq : body2 = body := by
    rw [henv] at hbody2
    exact (AttemptResult.response.injEq _ _ _ _).mp hbody2.symm |>.2
  subst hbeq
  rw [solve_cloudflare_challenge, if_neg hg,
    solveLoop_success env now mr j mr 1 st [] 0 (by omega) hj1 hjm hall hsoft _ _ hstep]
  exact ⟨rfl, rfl⟩

/-- Witness for C3: first attempt succeeds with cookies `{"a": "1"}` and
user-agent `"UA"`; the caller gets the raw payload and the store becomes valid. -/
theorem solve_success_payload_and_update_witness :
    (solve_cloudflare_challenge ⟨true, some "http://solver"⟩
      (fun k => if k = 1 then .response 200 ⟨true, some [("a", "1")], some "UA"⟩ else .fault)
      0 initialCloudflareState 3).result = some ⟨[("a", "1")], some "UA"⟩ ∧
    (solve_cloudflare_challenge ⟨true, some "http://solver"⟩
      (fun k => if k = 1 then .response 200 ⟨true, some [("a", "1")], some "UA"⟩ else .fault)
      0 initialCloudflareState 3).finalState.is_valid = true := by
  have h := solve_success_payload_and_update ⟨true, some "http://solver"⟩
    (fun k => if k = 1 then .response 200 ⟨true, some [("a", "1")], some "UA"⟩ else .fault)
    0 initialCloudflareState 3 1 ⟨true, some [("a", "1")], some "UA"⟩
    rfl (by decide) le_rfl (by omega)
    (fun k hk1 hk2 => absurd hk2 (Nat.not_lt.mpr hk1)) rfl rfl
  refine ⟨h.1, ?_⟩
  rw [h.2]
  decide

/-- **C4.** After a soft failure on attempt `k < max_retries` the loop waits
exactly `backoff k = k * 2` seconds before the next attempt, and no wait
follows the final attempt: when all `mr` attempts soft-fail the sleep list is
`[2, 4, …, (mr-1)*2]`, and when attempt `j` is the first success it is
`[2, 4, …, (j-1)*2]`; the durations are a pure function of the attempt number. -/
theorem solve_backoff_schedule (cfg : SolverConfig) (env : Nat → AttemptResult)
    (now : Nat) (st : CloudflareState) (mr : Nat)
    (hen : cfg.cloudflare_solver_enabled = true)
    (hurl : optStrTruthy cfg.cloudflare_solver_api_url = true) :
    ((∀ k, 1 ≤ k → k ≤ mr → isSoftFailure (env k) = true) →
      (solve_cloudflare_challenge cfg env now st mr).waits =
        (List.range (mr - 1)).map (fun i => backoff (i + 1))) ∧
    (∀ j, 1 ≤ j → j ≤ mr →
      (∀ k, 1 ≤ k → k < j → isSoftFailure (env k) = true) →
      isSoftFailure (env j) = false →
      (solve_cloudflare_challenge cfg env now st mr).waits =
        (List.range (j - 1)).map (fun i => backoff (i + 1))) := by
  have hg : ¬((!cfg.cloudflare_solver_enabled || !optStrTruthy cfg.cloudflare_solver_api_url) = true) := by
    simp [hen, hurl]
  have hmap : ∀ n, (List.range n).map (fun i => backoff (1 + i)) =
      (List.range n).map (fun i => backoff (i + 1)) :=
    fun n => List.map_congr_left (fun a _ => by rw [Nat.add_comm])
  constructor
  · intro hall
    rw [solve_cloudflare_challenge, if_neg hg,
      solveLoop_all_soft env now mr mr 1 st [] 0 (by omega) (fun k hk1 hk2 => hall k hk1 hk2)]
    simp only [List.reverse_nil, List.nil_append]
    exact hmap (mr - 1)
  · intro j hj1 hjm hall hns
    obtain ⟨body, _, _, hstep⟩ := attemptStep_of_not_soft (env j) st now hns
    rw [solve_cloudflare_challenge, if_neg hg,
      solveLoop_success env now mr j mr 1 st [] 0 (by omega) hj1 hjm hall hns _ _ hstep]
    simp only [List.reverse_nil, List.nil_append]
    exact hmap (j - 1)

/-- Witness for C4: three failing attempts sleep 2s then 4s — at least 6
seconds of waiting in total, and no wait after the final attempt. -/
theorem solve_backoff_schedule_witness :
    (solve_cloudflare_challenge ⟨true, some "http://solver"⟩ (fun _ => .fault) 0
      initialCloudflareState 3).waits = [2, 4] ∧
    6 ≤ (solve_cloudflare_challenge ⟨true, some "http://solver"⟩ (fun _ => .fault) 0
      initialCloudflareState 3).waits.sum := by
  have h := (solve_backoff_schedule ⟨true, some "http://solver"⟩ (fun _ => .fault) 0
    initialCloudflareState 3 rfl (by decide)).1 (fun _ _ _ => rfl)
  constructor
  · rw [h]
    decide
  · rw [h]
    decide

/-! ## `is_cloudflare_challenge` -/

/-- `needle` occurs at the very start of `hay`. -/
def charsLead : List Char → List Char → Bool
  | [], _ => true
  | _ :: _, [] => false
  | a :: as, b :: bs => a == b && charsLead as bs

/-- `needle` occurs somewhere inside `hay` (contiguously). -/
def charsHaveRun : List Char → List Char → Bool
  | [], needle => needle.isEmpty
  | a :: rest, needle => charsLead needle (a :: rest) || charsHaveRun rest needle

/-- Python's `needle in hay` on strings. -/
def strContainsSub (hay needle : String) : Bool :=
  charsHaveRun hay.toList needle.toList

/-- Python's `str(headers)` for a dict: the flattened textual representation
`{'k': 'v', …}` that the header check is run over. -/
def headersStr (hs : List (String × String)) : String :=
  "\x7b" ++ String.intercalate ", "
    (hs.map fun kv => "\x27" ++ kv.1 ++ "\x27: \x27" ++ kv.2 ++ "\x27") ++ "\x7d"

/-- `is_cloudflare_challenge(status_code, headers, response_text)`: false unless
the status is 429 or 403; otherwise a signature match over the flattened
headers and the body text. -/
def is_cloudflare_challenge (status_code : Nat) (headers : List (String × String))
    (response_text : String) : Bool :=
  if status_code = 429 ∨ status_code = 403 then
    strContainsSub (headersStr headers) "cf-mitigated" ||
    strContainsSub response_text "Just a moment" ||
    strContainsSub response_text "challenge-platform"
  else false

/-- Stated from the spec's words: the status gate passes (429 or 403) and at
least one of the three textual markers is present. -/
def challengeSpecPred (status_code : Nat) (headers : List (String × String))
    (response_text : String) : Prop :=
  (status_code = 429 ∨ status_code = 403) ∧
  (strContainsSub (headersStr headers) "cf-mitigated" = true ∨
   strContainsSub response_text "Just a moment" = true ∨
   strContainsSub response_text "challenge-platform" = true)

/-- **C5.** `is_cloudflare_challenge` returns false whenever the status code is
neither 429 nor 403, and for 429/403 it returns true iff the flattened header
text contains `cf-mitigated`, or the body contains `Just a moment`, or the body
contains `challenge-platform`. -/
theorem challenge_detector_characterisation (status_code : Nat)
    (headers : List (String × String)) (response_text : String) :
    is_cloudflare_challenge status_code headers response_text = true ↔
      challengeSpecPred status_code headers response_text := by
  rw [is_cloudflare_challenge, challengeSpecPred]
  by_cases hs : status_code = 429 ∨ status_code = 403
  · rw [if_pos hs]
    simp [hs, Bool.or_eq_true, or_assoc]
  · rw [if_neg hs]
    simp [hs]

/-! ## `ProxyManager` -/

/-- Drop leading whitespace characters. -/
def dropLeadWs : List Char → List Char
  | [] => []
  | c :: rest => if c.isWhitespace then dropLeadWs rest else c :: rest

/-- Python's `str.strip()`: remove leading and trailing whitespace. -/
def pyStrip (s : String) : String :=
  ⟨(dropLeadWs (dropLeadWs s.toList).reverse).reverse⟩

/-- Python's `str.startswith("#")`: the first character is `#` (false on the
empty string). -/
def startsHash (s : String) : Bool :=
  match s.toList with
  | [] => false
  | c :: _ => c == '#'

/-- What reading `data/proxy.txt` can observe: the file is absent
(`exists()` false), the iteration yields all lines, or an exception is
raised after the first `lines` lines were already delivered (an `open`
that itself raises is `failAfter []`). -/
inductive FileRead where
  | missing
  | content (lines : List String)
  | failAfter (lines : List String)
  deriving Repr, DecidableEq

/-- `ProxyManager._load_proxy_pool`: `proxies` is accumulated inside the
`try`, appending each stripped line that is non-empty and does not start
with `#`; a missing file yields the empty list, and an exception is caught
by the `except` branch, after which the lines appended so far — a possibly
non-empty prefix — are returned. -/
def _load_proxy_pool : FileRead → List String
  | .missing => []
  | .content lines =>
    lines.foldl
      (fun acc line =>
        if !(pyStrip line).isEmpty && !startsHash (pyStrip line) then acc ++ [pyStrip line]
        else acc)
      []
  | .failAfter lines =>
    lines.foldl
      (fun acc line =>
        if !(pyStrip line).isEmpty && !startsHash (pyStrip line) then acc ++ [pyStrip line]
        else acc)
      []

/-- From the spec's words: a line is kept when it is non-blank and its first
non-whitespace character is not `#`. -/
def lineKept (line : String) : Bool :=
  !(pyStrip line).isEmpty && !startsHash (pyStrip line)

theorem load_proxy_pool_foldl (lines : List String) (acc : List String) :
    lines.foldl
      (fun acc line =>
        if !(pyStrip line).isEmpty && !startsHash (pyStrip line) then acc ++ [pyStrip line]
        else acc)
      acc = acc ++ (lines.filter lineKept).map pyStrip := by
  induction lines generalizing acc with
  | nil => simp
  | cons a rest ih =>
    simp only [List.foldl_cons, List.filter_cons]
    by_cases h : (!(pyStrip a).isEmpty && !startsHash (pyStrip a)) = true
    · rw [if_pos h, ih, show lineKept a = true from h]
      simp
    · rw [if_neg h, ih]
      have h2 : lineKept a = false := by
        rw [lineKept]
        exact Bool.not_eq_true _ |>.mp h
      rw [h2]
      simp

/-- **C9, counterexample.** The claim that any read failure yields an empty
list is false of the code: a read that fails after delivering the line
`"http://p1"` returns the non-empty list `["http://p1"]`, because `proxies`
is accumulated inside the `try` and the `except` branch returns the prefix
appended before the exception. -/
theorem load_proxy_pool_failure_counterexample :
    _load_proxy_pool (.failAfter ["http://p1"]) = ["http://p1"] ∧
    _load_proxy_pool (.failAfter ["http://p1"]) ≠ [] := by
  decide

/-- **C9, amended.** Loading the proxy pool keeps exactly the (stripped)
lines that are non-blank and whose first non-whitespace character is not
`#`, in source order; a read failure never propagates an error, but yields
the — possibly non-empty — kept prefix of the lines delivered before the
exception rather than an empty list; a missing file yields the empty list. -/
theorem load_proxy_pool_characterisation :
    (∀ lines, _load_proxy_pool (.content lines) = (lines.filter lineKept).map pyStrip) ∧
    (∀ lines, _load_proxy_pool (.failAfter lines) = (lines.filter lineKept).map pyStrip) ∧
    _load_proxy_pool .missing = [] := by
  refine ⟨fun lines => ?_, fun lines => ?_, rfl⟩ <;>
    rw [_load_proxy_pool, load_proxy_pool_foldl] <;> simp

/-- The persisted proxy configuration returned by `db.get_proxy_config()`. -/
structure ProxyConfig where
  proxy_enabled : Bool
  proxy_url : Option String
  proxy_pool_enabled : Bool
  deriving Repr, DecidableEq

/-- `ProxyManager`'s cached rotation state: `_proxy_pool` and `_pool_index`. -/
structure PoolState where
  pool : List String
  index : Nat
  deriving Repr, DecidableEq

/-- `config.proxy_url if config.proxy_url else None`: a falsy (absent or
empty) URL becomes `None`. -/
def optUrl : Option String → Option String
  | none => none
  | some s => if s.isEmpty then none else some s

/-- The pool `get_proxy_url` rotates over: the cached pool, reloaded from the
file first when the cache is empty. -/
def effectivePool (file : FileRead) (s : PoolState) : List String :=
  if s.pool.isEmpty then _load_proxy_pool file else s.pool

/-- `ProxyManager.get_proxy_url`, reading a fresh `ProxyConfig`: `None` when
the proxy is disabled; with the pool enabled, reload the cached pool if empty,
return the entry at the cursor and advance it modulo the length, falling back
to the single `proxy_url` when the pool is empty after the load attempt; with
the pool disabled, return the single `proxy_url`. -/
def get_proxy_url (cfg : ProxyConfig) (file : FileRead) (s : PoolState) :
    Option String × PoolState :=
  if !cfg.proxy_enabled then (none, s)
  else if cfg.proxy_pool_enabled then
    let pool := effectivePool file s
    if pool.isEmpty then (optUrl cfg.proxy_url, ⟨pool, s.index⟩)
    else (some (pool.getD s.index ""), ⟨pool, (s.index + 1) % pool.length⟩)
  else (optUrl cfg.proxy_url, s)

/-- `ProxyManager.update_proxy_config`: persist the new configuration and
reset the cached pool (entries cleared, cursor zeroed). -/
def update_proxy_config (enabled : Bool) (proxy_url : Option String)
    (proxy_pool_enabled : Bool) (_s : PoolState) : ProxyConfig × PoolState :=
  (⟨enabled, proxy_url, proxy_pool_enabled⟩, ⟨[], 0⟩)

/-- **C6.** `get_proxy_url` returns `None` when the proxy is disabled; with the
proxy on and the pool off it returns the single `proxy_url` (or `None` when
that is falsy); with the pool on it returns the entry of the (reloaded when
empty) pool at the cursor, falling back to `proxy_url` exactly when the pool
is still empty after the load attempt. -/
theorem resolve_proxy_cases (cfg : ProxyConfig) (file : FileRead) (s : PoolState) :
    (cfg.proxy_enabled = false → (get_proxy_url cfg file s).1 = none) ∧
    (cfg.proxy_enabled = true → cfg.proxy_pool_enabled = false →
      (get_proxy_url cfg file s).1 = optUrl cfg.proxy_url) ∧
    (cfg.proxy_enabled = true → cfg.proxy_pool_enabled = true →
      (effectivePool file s = [] → (get_proxy_url cfg file s).1 = optUrl cfg.proxy_url) ∧
      (effectivePool file s ≠ [] →
        (get_proxy_url cfg file s).1 = some ((effectivePool file s).getD s.index ""))) := by
  refine ⟨?_, ?_, ?_⟩
  · intro h
    simp [get_proxy_url, h]
  · intro he hp
    simp [get_proxy_url, he, hp]
  · intro he hp
    constructor
    · intro hemp
      simp [get_proxy_url, he, hp, hemp]
    · intro hne
      have hie : (effectivePool file s).isEmpty = false := by
        simpa [List.isEmpty_iff] using hne
      simp [get_proxy_url, he, hp, hie]

/-- Witness for C6, the spec's worked example: proxy and pool enabled, empty
pool source, `proxy_url = "http://p1"` resolves to `"http://p1"`. -/
theorem resolve_proxy_cases_witness :
    (get_proxy_url ⟨true, some "http://p1", true⟩ (.content []) ⟨[], 0⟩).1 =
      some "http://p1" := by
  have h := (resolve_proxy_cases ⟨true, some "http://p1", true⟩ (.content []) ⟨[], 0⟩).2.2
    rfl rfl
  rw [h.1 (by decide)]
  decide

/-- The `ProxyManager` state after `k` single-threaded `get_proxy_url` calls. -/
def statesFrom (cfg : ProxyConfig) (file : FileRead) (s : PoolState) : Nat → PoolState
  | 0 => s
  | k + 1 => (get_proxy_url cfg file (statesFrom cfg file s k)).2

/-- The value returned by the `(k+1)`-th single-threaded `get_proxy_url` call
(`k` is 0-based). -/
def resultAt (cfg : ProxyConfig) (file : FileRead) (s : PoolState) (k : Nat) : Option String :=
  (get_proxy_url cfg file (statesFrom cfg file s k)).1

theorem get_proxy_url_rotate (cfg : ProxyConfig) (file : FileRead)
    (entries : List String) (i : Nat)
    (hen : cfg.proxy_enabled = true) (hpool : cfg.proxy_pool_enabled = true)
    (hne : entries ≠ []) :
    get_proxy_url cfg file ⟨entries, i⟩ =
      (some (entries.getD i ""), ⟨entries, (i + 1) % entries.length⟩) := by
  have hie : entries.isEmpty = false := by
    simpa [List.isEmpty_iff] using hne
  simp [get_proxy_url, effectivePool, hen, hpool, hie]

theorem get_proxy_url_fresh (cfg : ProxyConfig) (file : FileRead)
    (hen : cfg.proxy_enabled = true) (hpool : cfg.proxy_pool_enabled = true)
    (hne : _load_proxy_pool file ≠ []) :
    get_proxy_url cfg file ⟨[], 0⟩ =
      (some ((_load_proxy_pool file).getD 0 ""),
        ⟨_load_proxy_pool file, 1 % (_load_proxy_pool file).length⟩) := by
  have hie : (_load_proxy_pool file).isEmpty = false := by
    simpa [List.isEmpty_iff] using hne
  simp [get_proxy_url, effectivePool, hen, hpool, hie]

theorem statesFrom_fresh (cfg : ProxyConfig) (file : FileRead)
    (hen : cfg.proxy_enabled = true) (hpool : cfg.proxy_pool_enabled = true)
    (hne : _load_proxy_pool file ≠ []) :
    ∀ k, 1 ≤ k → statesFrom cfg file ⟨[], 0⟩ k =
      ⟨_load_proxy_pool file, k % (_load_proxy_pool file).length⟩ := by
  intro k hk
  induction k with
  | zero => omega
  | succ n ih =>
    by_cases hn : n = 0
    · subst hn
      show (get_proxy_url cfg file (statesFrom cfg file ⟨[], 0⟩ 0)).2 = _
      rw [show statesFrom cfg file (⟨[], 0⟩ : PoolState) 0 = ⟨[], 0⟩ from rfl,
        get_proxy_url_fresh cfg file hen hpool hne]
    · have h1 : 1 ≤ n := by omega
      show (get_proxy_url cfg file (statesFrom cfg file ⟨[], 0⟩ n)).2 = _
      rw [ih h1, get_proxy_url_rotate cfg file _ _ hen hpool hne]
      rw [Nat.mod_add_mod]

/-- **C7.** For a pool whose source loads `N ≥ 1` entries, starting from the
reset state with proxy and pool enabled, the first `N` single-threaded
`get_proxy_url` calls return each entry exactly once in source order
(call `k` returns entry `k`), and the `(N+1)`-th call returns the first
entry again: deterministic round-robin with wraparound. -/
theorem proxy_pool_round_robin (file : FileRead) (u : Option String)
    (hne : _load_proxy_pool file ≠ []) :
    (∀ k, k < (_load_proxy_pool file).length →
      resultAt ⟨true, u, true⟩ file ⟨[], 0⟩ k = some ((_load_proxy_pool file).getD k "")) ∧
    resultAt ⟨true, u, true⟩ file ⟨[], 0⟩ (_load_proxy_pool file).length =
      some ((_load_proxy_pool file).getD 0 "") := by
  have hlen : 1 ≤ (_load_proxy_pool file).length := by
    cases hl : _load_proxy_pool file with
    | nil => exact absurd hl hne
    | cons a rest => simp
  constructor
  · intro k hk
    by_cases hk0 : k = 0
    · subst hk0
      rw [resultAt, show statesFrom ⟨true, u, true⟩ file (⟨[], 0⟩ : PoolState) 0 = ⟨[], 0⟩ from rfl,
        get_proxy_url_fresh _ file rfl rfl hne]
    · have h1 : 1 ≤ k := by omega
      rw [resultAt, statesFrom_fresh _ file rfl rfl hne k h1,
        get_proxy_url_rotate _ file _ _ rfl rfl hne]
      rw [Nat.mod_eq_of_lt hk]
  · rw [resultAt, statesFrom_fresh _ file rfl rfl hne _ hlen,
      get_proxy_url_rotate _ file _ _ rfl rfl hne]
    rw [Nat.mod_self]

/-- Witness for C7 on a two-entry source: calls 1, 2, 3 return `p1`, `p2`,
then `p1` again. -/
theorem proxy_pool_round_robin_witness :
    resultAt ⟨true, none, true⟩ (.content ["http://p1", "http://p2"]) ⟨[], 0⟩ 0 =
      some "http://p1" ∧
    resultAt ⟨true, none, true⟩ (.content ["http://p1", "http://p2"]) ⟨[], 0⟩ 1 =
      some "http://p2" ∧
    resultAt ⟨true, none, true⟩ (.content ["http://p1", "http://p2"]) ⟨[], 0⟩ 2 =
      some "http://p1" := by
  have h := proxy_pool_round_robin (.content ["http://p1", "http://p2"]) none (by decide)
  have e : _load_proxy_pool (.content ["http://p1", "http://p2"]) =
      ["http://p1", "http://p2"] := by decide
  rw [e] at h
  exact ⟨by simpa using h.1 0 (by decide), by simpa using h.1 1 (by decide),
    by simpa using h.2⟩

/-- **C8.** `update_proxy_config` leaves the cached pool empty with cursor
zero, so an immediately following `get_proxy_url` with the pool enabled
reloads the pool from the source and returns its first entry (or the
single-proxy fallback when the source is empty) — never an entry selected by
the pre-update pool's stale cursor. -/
theorem update_config_resets_pool (e : Bool) (u : Option String) (p : Bool)
    (s : PoolState) (file : FileRead) (cfg2 : ProxyConfig)
    (hen : cfg2.proxy_enabled = true) (hpool : cfg2.proxy_pool_enabled = true) :
    (update_proxy_config e u p s).2 = ⟨[], 0⟩ ∧
    (get_proxy_url cfg2 file (update_proxy_config e u p s).2).1 =
      (if _load_proxy_pool file = [] then optUrl cfg2.proxy_url
       else some ((_load_proxy_pool file).getD 0 "")) := by
  refine ⟨rfl, ?_⟩
  by_cases hl : _load_proxy_pool file = []
  · rw [if_pos hl]
    have hemp : effectivePool file (update_proxy_config e u p s).2 = [] := by
      simp [update_proxy_config, effectivePool, hl]
    exact ((resolve_proxy_cases cfg2 file _).2.2 hen hpool).1 hemp
  · rw [if_neg hl]
    rw [show (update_proxy_config e u p s).2 = ⟨[], 0⟩ from rfl,
      get_proxy_url_fresh cfg2 file hen hpool hl]

/-- Witness for C8: with a stale two-entry pool at cursor 1, updating the
configuration and resolving again returns the freshly loaded entry, not the
stale cursor's. -/
theorem update_config_resets_pool_witness :
    (get_proxy_url ⟨true, some "http://old", true⟩ (.content ["http://new"])
      (update_proxy_config true (some "http://old") true ⟨["stale1", "stale2"], 1⟩).2).1 =
      some "http://new" := by
  have h := (update_config_resets_pool true (some "http://old") true ⟨["stale1", "stale2"], 1⟩
    (.content ["http://new"]) ⟨true, some "http://old", true⟩ rfl rfl).2
  rw [h]
  decide

end Sora
